import Mathlib

/-!
Shallow embedding of src/main.py: a one-shot price reconciliation script that
reads asset records from a Feishu bitable, extracts stock symbols from
heterogeneous field values, fetches prices from yfinance in one batched
download guarded by a bounded retry loop, joins records to prices, and writes
the results back in a single bulk update call.
-/

namespace Gupiao

/-- A Python float value as it appears in a pandas cell returned by
yf.download: NaN, positive or negative infinity, or a finite value modelled
as an exact rational. -/
inductive PFloat where
  | nan
  | inf
  | neginf
  | fin (q : ℚ)
deriving DecidableEq, Repr

/-- pd.notna: false exactly on NaN (pandas does not treat infinities as
missing by default). -/
def pdNotna : PFloat → Bool
  | .nan => false
  | _ => true

/-- Finiteness classifier used to state the spec's notion of a usable price. -/
def isFinitePF : PFloat → Bool
  | .fin _ => true
  | _ => false

/-- Python round(x) on an exact rational: round half to even. -/
def pyRoundInt (q : ℚ) : ℤ :=
  let f := ⌊q⌋
  let r := q - f
  if r < 1 / 2 then f
  else if 1 / 2 < r then f + 1
  else if Even f then f else f + 1

/-- round(x, 5) on a finite value: round to 5 fractional digits. -/
def round5q (q : ℚ) : ℚ := (pyRoundInt (q * 100000) : ℚ) / 100000

/-- round(float(price), 5) as the source applies it to a cell: finite values
are rounded to 5 fractional digits, NaN and the infinities are returned
unchanged (Python round leaves them as they are). -/
def round5 : PFloat → PFloat
  | .fin q => .fin (round5q q)
  | x => x

/-- One attempt of yf.download inside the retry loop of
fetch_yfinance_price: either a successful frame, read as a per-symbol Close
cell (none models the per-symbol exception path: missing column or empty
frame), or an exception whose message may or may not contain the substring
_database is locked_. -/
inductive DlOutcome where
  | ok (cells : String → Option PFloat)
  | err (dbLocked : Bool)

/-- The per-symbol body of the result loop of fetch_yfinance_price: an
exception while reading the cell yields None, a NaN cell (pd.notna false)
yields None, otherwise the cell is stored as round(float(price), 5). -/
def resolveSymbol (cells : String → Option PFloat) (s : String) : Option PFloat :=
  match cells s with
  | none => none
  | some c => if pdNotna c then some (round5 c) else none

/-- The retry loop _for attempt in range(3)_ of fetch_yfinance_price,
parameterised by the outcome of each download attempt. Returns the data
obtained (none when the loop ends with data = None), the number of download
attempts made, and the number of time.sleep(2) calls performed. Retrying
happens only when the exception message contains _database is locked_ and
attempt < 2; any other failure sets data = None and breaks at once. -/
def retryAux (dl : Nat → DlOutcome) :
    Nat → Nat → Option (String → Option PFloat) × Nat × Nat
  | _, 0 => (none, 0, 0)
  | attempt, fuel + 1 =>
    match dl attempt with
    | .ok cells => (some cells, 1, 0)
    | .err locked =>
      if locked = true ∧ attempt < 2 then
        ((retryAux dl (attempt + 1) fuel).1,
         (retryAux dl (attempt + 1) fuel).2.1 + 1,
         (retryAux dl (attempt + 1) fuel).2.2 + 1)
      else (none, 1, 0)

/-- The full retry loop: three iterations starting at attempt 0. -/
def downloadData (dl : Nat → DlOutcome) :
    Option (String → Option PFloat) × Nat × Nat :=
  retryAux dl 0 3

/-- Result of fetch_yfinance_price: the prices dict (association list, keys
inserted in unique-symbol order), plus the attempt and sleep counters of the
retry loop for stating the retry policy. -/
structure FetchResult where
  prices : List (String × Option PFloat)
  attempts : Nat
  sleeps : Nat
deriving DecidableEq, Repr

/-- fetch_yfinance_price: empty input returns an empty dict at once; otherwise
the symbols are deduplicated (list(set(symbols))), one batched download is
attempted under the retry loop, a failed download yields an empty dict, and a
successful one yields one entry per unique symbol via resolveSymbol. -/
def fetch_yfinance_price (symbols : List String) (dl : Nat → DlOutcome) :
    FetchResult :=
  if symbols = [] then ⟨[], 0, 0⟩
  else
    match downloadData dl with
    | (none, att, sl) => ⟨[], att, sl⟩
    | (some cells, att, sl) =>
      ⟨(symbols.dedup).map fun s => (s, resolveSymbol cells s), att, sl⟩

/-- A span of a Feishu rich-text array: a dict that may or may not carry a
textual _text_ entry (the modelled shapes keep the text a string, as the
Feishu API returns it). -/
structure RichItem where
  text : Option String
deriving DecidableEq, Repr

/-- Decimal model of a Python float field value parsed from JSON: the value
mant / 10 ^ fexp, assumed normalized (mant not a multiple of 10 when
fexp > 0) so that its rendering matches the shortest representation Python
prints. -/
structure PyDec where
  mant : ℤ
  fexp : ℕ
deriving DecidableEq, Repr

/-- The shapes a raw Feishu field value can take in the source's branches:
a plain string, a rich-text array, or a numeric scalar (int or float). A
missing field or an explicit null is Option.none one level up. -/
inductive RawValue where
  | str (s : String)
  | rich (items : List RichItem)
  | intV (n : ℤ)
  | floatV (x : PyDec)
deriving DecidableEq, Repr

/-- Python truthiness of a field value, as tested by _if not field_value_:
empty string, empty list, integer 0 and float 0.0 are falsy. -/
def truthy : RawValue → Bool
  | .str s => s ≠ ""
  | .rich items => items ≠ []
  | .intV n => n ≠ 0
  | .floatV x => x.mant ≠ 0

/-- Python str.strip() with no argument: remove leading and trailing
whitespace (modelled over the ASCII whitespace characters). Defined over the
character list so that it evaluates by kernel reduction. -/
def pyStrip (s : String) : String :=
  String.mk
    (((s.data.dropWhile Char.isWhitespace).reverse.dropWhile
        Char.isWhitespace).reverse)

/-- Left-pad a digit string with zeros to the given length. -/
def padZeros (s : String) (len : ℕ) : String :=
  String.mk (List.replicate (len - s.length) '0') ++ s

/-- str(x) for the decimal float model: an integral float prints with a
trailing _.0_, otherwise sign, integer part, dot, and the fexp fraction
digits. -/
def pyDecStr (x : PyDec) : String :=
  if x.fexp = 0 then toString x.mant ++ ".0"
  else
    let sign := if x.mant < 0 then "-" else ""
    let a := x.mant.natAbs
    let ip := a / 10 ^ x.fexp
    let fp := a % 10 ^ x.fexp
    sign ++ toString ip ++ "." ++ padZeros (toString fp) x.fexp

/-- get_symbol_string: falsy values give None; a string is trimmed; a
non-empty rich-text list whose first span has a text entry gives that text
trimmed, and otherwise falls through to None; a numeric scalar gives str(x).
Total by construction: no shape raises. -/
def get_symbol_string : Option RawValue → Option String
  | none => none
  | some v =>
    if truthy v then
      match v with
      | .str s => some (pyStrip s)
      | .rich items =>
        match items with
        | [] => none
        | it :: _ =>
          match it.text with
          | some t => some (pyStrip t)
          | none => none
      | .intV n => some (toString n)
      | .floatV x => some (pyDecStr x)
    else none

/-- One row of the Feishu table as main uses it: the record id and the raw
value of the Code field (none when the field is missing or null). -/
structure PyRecord where
  record_id : String
  codeField : Option RawValue
deriving DecidableEq, Repr

/-- One element of the update payload main builds: a record id paired with
the resolved price written into the Price field. -/
structure UpdateRecord where
  record_id : String
  price : PFloat
deriving DecidableEq, Repr

/-- The per-record condition of the reconciliation loop of main: the update
record produced for one row, or none when the row is skipped. Mirrors
_if symbol and symbol in price_data and price_data[symbol] is not None_. -/
def recordIntent (price_data : List (String × Option PFloat)) (r : PyRecord) :
    Option UpdateRecord :=
  match get_symbol_string r.codeField with
  | none => none
  | some s =>
    if s = "" then none
    else
      match price_data.lookup s with
      | none => none
      | some none => none
      | some (some p) => some ⟨r.record_id, p⟩

/-- The reconciliation loop of main, carrying feishu_payload and
updated_count exactly as the source appends and increments them. -/
def reconcileAux (price_data : List (String × Option PFloat)) :
    List PyRecord → List UpdateRecord → Nat → List UpdateRecord × Nat
  | [], payload, count => (payload, count)
  | r :: rest, payload, count =>
    match recordIntent price_data r with
    | some u => reconcileAux price_data rest (payload ++ [u]) (count + 1)
    | none => reconcileAux price_data rest payload count

/-- The reconciliation pass of main over all records: the ordered update
payload and the updated_count tally. -/
def reconcile (price_data : List (String × Option PFloat))
    (records : List PyRecord) : List UpdateRecord × Nat :=
  reconcileAux price_data records [] 0

/-- The JSON body of a Feishu write response: business code and message. -/
structure FeishuBody where
  code : ℤ
  msg : String
deriving DecidableEq, Repr

/-- An HTTP response to the bulk update call: status code and parsed JSON
body (none when the body is not valid JSON). -/
structure HttpResponse where
  status : ℕ
  body : Option FeishuBody
deriving DecidableEq, Repr

/-- The exceptions update_price_records can raise: the explicit Exception
built from a non-200 response with a JSON body, the HTTPError from
raise_for_status on a non-JSON 4xx/5xx body, a JSONDecodeError when the body
cannot be parsed where a parse is attempted, and the business-error
Exception on a 200 response whose code is not 0. -/
inductive WriteError where
  | httpError (status : ℕ) (code : ℤ) (msg : String)
  | forStatus (status : ℕ)
  | jsonDecode
  | bizError (code : ℤ) (msg : String)
deriving DecidableEq, Repr

/-- update_price_records: issues exactly one POST whose payload is the whole
records list (returned as the second component: the list of calls made, each
with its payload). A non-200 status raises: the custom Exception when the
body parses, raise_for_status (4xx/5xx) or a JSONDecodeError otherwise. On a
200 response, a missing JSON body raises JSONDecodeError and a non-zero
business code raises the business Exception; only code 0 returns normally. -/
def update_price_records (records : List UpdateRecord) (resp : HttpResponse) :
    Except WriteError Unit × List (List UpdateRecord) :=
  let result : Except WriteError Unit :=
    if resp.status ≠ 200 then
      match resp.body with
      | some b => .error (.httpError resp.status b.code b.msg)
      | none =>
        if 400 ≤ resp.status then .error (.forStatus resp.status)
        else .error .jsonDecode
    else
      match resp.body with
      | none => .error .jsonDecode
      | some b => if b.code = 0 then .ok () else .error (.bizError b.code b.msg)
  (result, [records])

/-- The three environment secrets read at module load. -/
structure Env where
  app_id : Option String
  app_secret : Option String
  base_token : Option String
deriving DecidableEq, Repr

/-- Truthiness of one environment entry inside all([...]): unset (None) and
the empty string are falsy. -/
def envTruthy : Option String → Bool
  | none => false
  | some s => s ≠ ""

/-- The externally visible calls main can make, in order. -/
inductive Action where
  | authCall
  | readCall
  | fetchDownload
  | writeCall
deriving DecidableEq, Repr

/-- How a run of main ends (every branch returns normally, so the textual
outcome is the only distinction). -/
inductive MainOutcome where
  | configError
  | exceptionCaught
  | noRecords
  | noSymbols
  | noPayload
  | updated (n : ℕ)
deriving DecidableEq, Repr

/-- The observable result of one run of main: the process exit code, the
sequence of external calls made, and the outcome branch taken. -/
structure RunResult where
  exitCode : ℕ
  actions : List Action
  outcome : MainOutcome
deriving DecidableEq, Repr

/-- The symbol extraction loop of main: symbols_to_fetch collects the truthy
extracted symbol of each record, in record order. -/
def extractSymbols (records : List PyRecord) : List String :=
  records.filterMap fun r =>
    match get_symbol_string r.codeField with
    | some s => if s = "" then none else some s
    | none => none

/-- main, parameterised by the environment and by oracles for the outcomes
of the token exchange, the record listing, the download attempts and the
bulk write response. Faithful to the source control flow: the config check
returns before any call; the try block wraps auth, read, extraction, fetch,
reconciliation and write; every exception is caught by the bare except and
the function returns normally, so the exit code is 0 on every path. -/
def main (env : Env) (auth : Except String Unit)
    (readR : Except String (List PyRecord)) (dl : Nat → DlOutcome)
    (writeResp : HttpResponse) : RunResult :=
  if envTruthy env.app_id && envTruthy env.app_secret && envTruthy env.base_token then
    match auth with
    | .error _ => ⟨0, [.authCall], .exceptionCaught⟩
    | .ok () =>
      match readR with
      | .error _ => ⟨0, [.authCall, .readCall], .exceptionCaught⟩
      | .ok records =>
        if records = [] then ⟨0, [.authCall, .readCall], .noRecords⟩
        else
          if extractSymbols records = [] then
            ⟨0, [.authCall, .readCall], .noSymbols⟩
          else
            let price_data := fetch_yfinance_price (extractSymbols records) dl
            let recon := reconcile price_data.prices records
            if recon.1 = [] then
              ⟨0, [.authCall, .readCall, .fetchDownload], .noPayload⟩
            else
              match (update_price_records recon.1 writeResp).1 with
              | .error _ =>
                ⟨0, [.authCall, .readCall, .fetchDownload, .writeCall],
                  .exceptionCaught⟩
              | .ok () =>
                ⟨0, [.authCall, .readCall, .fetchDownload, .writeCall],
                  .updated recon.2⟩
  else ⟨0, [], .configError⟩

/-- Concrete download oracles and responses used by witnesses and
counterexamples. -/
def dlOkNone : Nat → DlOutcome := fun _ => .ok fun _ => none

def dlGenericFail : Nat → DlOutcome := fun _ => .err false

def dlAlwaysLocked : Nat → DlOutcome := fun _ => .err true

def dlInfCell : Nat → DlOutcome :=
  fun _ => .ok fun s => if s = "A" then some .inf else none

def dlHalfCell : Nat → DlOutcome := fun _ => .ok fun _ => some (.fin (1 / 2))

def resp200ok : HttpResponse := ⟨200, some ⟨0, "success"⟩⟩

def resp500 : HttpResponse := ⟨500, some ⟨1254005, "field validation failed"⟩⟩

def envOK : Env := ⟨some "id", some "secret", some "token"⟩

def envMissingId : Env := ⟨none, some "secret", some "token"⟩

def u1 : UpdateRecord := ⟨"rec1", .fin (3 / 2)⟩

def u2 : UpdateRecord := ⟨"rec2", .fin (5 / 2)⟩

def u3 : UpdateRecord := ⟨"rec3", .fin (7 / 2)⟩

/-- The loop of reconcile is an order-preserving filterMap of its per-record
body, and updated_count counts the emitted intents. -/
theorem reconcileAux_spec (pd : List (String × Option PFloat))
    (rs : List PyRecord) :
    ∀ (acc : List UpdateRecord) (n : ℕ),
      reconcileAux pd rs acc n =
        (acc ++ rs.filterMap (recordIntent pd),
         n + (rs.filterMap (recordIntent pd)).length) := by
  induction rs with
  | nil => intro acc n; simp [reconcileAux]
  | cons r rest ih =>
    intro acc n
    cases h : recordIntent pd r with
    | none => simp [reconcileAux, h, ih, List.filterMap_cons]
    | some u =>
      simp only [reconcileAux, h, ih, List.filterMap_cons, List.length_cons]
      refine Prod.ext ?_ ?_
      · simp
      · simp; omega

/-- C1 counterexample: the claim requires that an emitted UpdateIntent's
quote be finite, but with the quote mapping sending A to positive infinity
(reachable, since pd.notna does not filter infinities) the reconciliation
loop still emits an intent carrying the non-finite price. -/
theorem reconcile_inf_cex :
    (reconcile [("A", some PFloat.inf)] [⟨"r1", some (.str "A")⟩]).1 =
      [⟨"r1", PFloat.inf⟩] ∧ isFinitePF PFloat.inf = false := by
  exact ⟨rfl, rfl⟩

/-- C1 (amended): the reconciliation pass is the order-preserving filterMap
of recordIntent, and an UpdateIntent is produced for a record if and only if
its extracted symbol is non-empty and that symbol maps, in the quote
mapping, to a present, non-None price; a symbol absent from the mapping is
skipped exactly like one mapped to an explicit None. Finiteness of the price
is not checked at this stage. -/
theorem reconcile_emits_iff (pd : List (String × Option PFloat))
    (rs : List PyRecord) :
    (reconcile pd rs).1 = rs.filterMap (recordIntent pd) ∧
    ∀ r : PyRecord,
      ((recordIntent pd r).isSome ↔
        ∃ s, get_symbol_string r.codeField = some s ∧ s ≠ "" ∧
          ∃ p, pd.lookup s = some (some p)) := by
  constructor
  · simp [reconcile, reconcileAux_spec]
  · intro r
    unfold recordIntent
    cases hs : get_symbol_string r.codeField with
    | none => simp [hs]
    | some s =>
      by_cases he : s = ""
      · simp [hs, he]
      · cases hl : pd.lookup s with
        | none => simp [hs, he, hl]
        | some o =>
          cases o with
          | none => simp [hs, he, hl]
          | some p => simp [hs, he, hl]

/-- C8: the sequence of UpdateIntents follows the input record order (it is
the filterMap of the per-record body over the records in order), the count
tallies them, and two records sharing one extracted symbol with a usable
quote each get their own UpdateIntent carrying the same price value. -/
theorem reconcile_order_and_fanout (pd : List (String × Option PFloat))
    (rs : List PyRecord) :
    (reconcile pd rs).1 = rs.filterMap (recordIntent pd) ∧
    (reconcile pd rs).2 = (rs.filterMap (recordIntent pd)).length ∧
    ∀ r₁ r₂, r₁ ∈ rs → r₂ ∈ rs →
      ∀ s p, get_symbol_string r₁.codeField = some s →
        get_symbol_string r₂.codeField = some s → s ≠ "" →
        pd.lookup s = some (some p) →
        recordIntent pd r₁ = some ⟨r₁.record_id, p⟩ ∧
        recordIntent pd r₂ = some ⟨r₂.record_id, p⟩ := by
  refine ⟨by simp [reconcile, reconcileAux_spec], by simp [reconcile, reconcileAux_spec], ?_⟩
  intro r₁ r₂ _ _ s p h₁ h₂ hne hl
  constructor
  · unfold recordIntent; rw [h₁]; simp [hne, hl]
  · unfold recordIntent; rw [h₂]; simp [hne, hl]

/-- C8 witness: Scenario D — two records share the symbol MSFT whose quote
is 410.5; both produce independent UpdateIntents carrying 410.5. -/
theorem reconcile_order_and_fanout_witness :
    recordIntent [("MSFT", some (PFloat.fin (821 / 2)))]
        ⟨"r1", some (.str "MSFT")⟩ = some ⟨"r1", PFloat.fin (821 / 2)⟩ ∧
    recordIntent [("MSFT", some (PFloat.fin (821 / 2)))]
        ⟨"r2", some (.str "MSFT")⟩ = some ⟨"r2", PFloat.fin (821 / 2)⟩ :=
  (reconcile_order_and_fanout [("MSFT", some (PFloat.fin (821 / 2)))]
      [⟨"r1", some (.str "MSFT")⟩, ⟨"r2", some (.str "MSFT")⟩]).2.2
    ⟨"r1", some (.str "MSFT")⟩ ⟨"r2", some (.str "MSFT")⟩
    (by simp) (by simp) "MSFT" (PFloat.fin (821 / 2))
    rfl rfl (by decide) rfl

/-- The retry loop never makes more download attempts than it has fuel. -/
theorem retryAux_attempts_le (dl : Nat → DlOutcome) :
    ∀ (fuel attempt : Nat), (retryAux dl attempt fuel).2.1 ≤ fuel := by
  intro fuel
  induction fuel with
  | zero => intro a; simp [retryAux]
  | succ f ih =>
    intro a
    simp only [retryAux]
    cases dl a with
    | ok c => simp
    | err locked =>
      by_cases h : locked = true ∧ a < 2
      · simp only [h, if_true]
        exact Nat.succ_le_succ (ih (a + 1))
      · simp [h]

/-- C3 counterexample: a download failure whose message does not contain
_database is locked_ (for example an HTTP error from the provider) is not
retried at all: one attempt is made, no sleep happens, and the empty mapping
is returned — contradicting the claim that every transport-level or
provider-level failure is retried up to 3 attempts with a 2-unit delay
between attempts. -/
theorem fetch_no_retry_cex :
    fetch_yfinance_price ["AAPL"] dlGenericFail =
      ⟨[], 1, 0⟩ := by
  rfl

/-- C3 (amended): only failures whose message contains _database is locked_
are retried, up to 3 attempts total with one 2-unit sleep between successive
attempts; any other failure ends the loop after its own attempt with no
retry and no delay; in every failure case fetch returns the empty mapping
rather than raising, and never makes more than 3 attempts. -/
theorem fetch_retry_policy (symbols : List String) (dl : Nat → DlOutcome)
    (h : symbols ≠ []) :
    (dl 0 = .err false → fetch_yfinance_price symbols dl = ⟨[], 1, 0⟩) ∧
    (dl 0 = .err true → dl 1 = .err false →
      fetch_yfinance_price symbols dl = ⟨[], 2, 1⟩) ∧
    (dl 0 = .err true → dl 1 = .err true → ∀ b, dl 2 = .err b →
      fetch_yfinance_price symbols dl = ⟨[], 3, 2⟩) ∧
    (fetch_yfinance_price symbols dl).attempts ≤ 3 := by
  refine ⟨?_, ?_, ?_, ?_⟩
  · intro h0
    simp [fetch_yfinance_price, h, downloadData, retryAux, h0]
  · intro h0 h1
    simp [fetch_yfinance_price, h, downloadData, retryAux, h0, h1]
  · intro h0 h1 b h2
    simp [fetch_yfinance_price, h, downloadData, retryAux, h0, h1, h2]
  · unfold fetch_yfinance_price
    split
    · simp
    · unfold downloadData
      rcases hd : retryAux dl 0 3 with ⟨d, att, sl⟩
      have := retryAux_attempts_le dl 3 0
      rw [hd] at this
      cases d with
      | none => simpa using this
      | some cells => simpa using this

/-- C3 witness: with every attempt failing with the locked-database message,
fetch makes all 3 attempts, sleeps twice, and returns the empty mapping. -/
theorem fetch_retry_policy_witness :
    fetch_yfinance_price ["AAPL"] dlAlwaysLocked = ⟨[], 3, 2⟩ :=
  (fetch_retry_policy ["AAPL"] dlAlwaysLocked (by decide)).2.2.1 rfl rfl true rfl

/-- C10: an empty input symbol collection returns the empty mapping at once,
with zero download attempts and zero retry sleeps. -/
theorem fetch_empty_symbols (dl : Nat → DlOutcome) :
    fetch_yfinance_price [] dl = ⟨[], 0, 0⟩ := by
  rfl

/-- C9: whenever the retry loop obtains a batch response, the key list of
the returned mapping is exactly the deduplicated input symbol list — every
deduplicated symbol has an entry (price or None), not merely a subset. -/
theorem fetch_keys_complete (symbols : List String) (dl : Nat → DlOutcome)
    (h : (downloadData dl).1.isSome) :
    (fetch_yfinance_price symbols dl).prices.map Prod.fst = symbols.dedup ∧
    ∀ s, s ∈ (fetch_yfinance_price symbols dl).prices.map Prod.fst ↔
      s ∈ symbols := by
  have hkeys :
      (fetch_yfinance_price symbols dl).prices.map Prod.fst = symbols.dedup := by
    unfold fetch_yfinance_price
    split
    · simp_all
    · rcases hd : downloadData dl with ⟨d, att, sl⟩
      cases d with
      | none => rw [hd] at h; simp at h
      | some cells =>
        have hcomp :
            (Prod.fst ∘ fun s : String => (s, resolveSymbol cells s)) = id := rfl
        simp [List.map_map, hcomp]
  refine ⟨hkeys, ?_⟩
  intro s
  rw [hkeys]
  exact List.mem_dedup

/-- C9 witness: a successful download over a list with a duplicate yields
one key per deduplicated symbol. -/
theorem fetch_keys_complete_witness :
    (fetch_yfinance_price ["A", "B", "A"] dlOkNone).prices.map Prod.fst =
        (["A", "B", "A"] : List String).dedup ∧
    ∀ s, s ∈ (fetch_yfinance_price ["A", "B", "A"] dlOkNone).prices.map Prod.fst ↔
      s ∈ (["A", "B", "A"] : List String) :=
  fetch_keys_complete ["A", "B", "A"] dlOkNone rfl

/-- C5 counterexample: an infinite provider price is not treated as absent:
pd.notna holds of it, round leaves it unchanged, and fetch stores it in the
mapping — so not every value is a finite decimal or None. -/
theorem fetch_inf_cex :
    fetch_yfinance_price ["A"] dlInfCell =
      ⟨[("A", some PFloat.inf)], 1, 0⟩ ∧
    isFinitePF PFloat.inf = false := by
  exact ⟨rfl, rfl⟩

/-- C5 (amended): the key set of the mapping fetch returns is a subset of
the input symbols, and every value is None, a finite decimal rounded to 5
fractional digits, or an infinity passed through unfiltered; NaN and missing
cells are mapped to None, but non-finite prices are not. -/
theorem fetch_value_shape (symbols : List String) (dl : Nat → DlOutcome) :
    ∀ p ∈ (fetch_yfinance_price symbols dl).prices,
      p.1 ∈ symbols ∧
      (p.2 = none ∨ (∃ m : ℤ, p.2 = some (.fin ((m : ℚ) / 100000))) ∨
        p.2 = some .inf ∨ p.2 = some .neginf) := by
  intro p hp
  unfold fetch_yfinance_price at hp
  split at hp
  · simp at hp
  · rcases hd : downloadData dl with ⟨d, att, sl⟩
    rw [hd] at hp
    cases d with
    | none => simp at hp
    | some cells =>
      simp only [List.mem_map] at hp
      obtain ⟨s, hs, rfl⟩ := hp
      refine ⟨List.mem_dedup.mp hs, ?_⟩
      simp only
      unfold resolveSymbol
      cases hc : cells s with
      | none => left; rfl
      | some c =>
        cases c with
        | nan => left; simp [pdNotna]
        | inf => right; right; left; simp [pdNotna, round5]
        | neginf => right; right; right; simp [pdNotna, round5]
        | fin q =>
          right; left
          exact ⟨pyRoundInt (q * 100000), by simp [pdNotna, round5, round5q]⟩

/-- C5 witness: a finite cell of value one half is returned rounded (it is
50000 over 100000) under the key that was requested. -/
theorem fetch_value_shape_witness :
    (("B", some (PFloat.fin (1 / 2))) : String × Option PFloat).1 ∈
        (["B"] : List String) ∧
    ((("B", some (PFloat.fin (1 / 2))) : String × Option PFloat).2 = none ∨
      (∃ m : ℤ, (("B", some (PFloat.fin (1 / 2))) : String × Option PFloat).2 =
        some (.fin ((m : ℚ) / 100000))) ∨
      (("B", some (PFloat.fin (1 / 2))) : String × Option PFloat).2 =
        some PFloat.inf ∨
      (("B", some (PFloat.fin (1 / 2))) : String × Option PFloat).2 =
        some PFloat.neginf) :=
  fetch_value_shape ["B"] dlHalfCell ("B", some (PFloat.fin (1 / 2)))
    (by simp [fetch_yfinance_price, downloadData, retryAux, dlHalfCell,
      resolveSymbol, pdNotna, round5, round5q, pyRoundInt]; norm_num)

/-- C4 counterexample: a whitespace-only plain string is truthy, so it is
returned trimmed as the empty string rather than as None; and the numeric
scalar 0 is falsy, so it yields None rather than its decimal string. Both
contradict the claimed canonical values. -/
theorem get_symbol_string_cex :
    get_symbol_string (some (.str " ")) = some "" ∧
    pyStrip " " = "" ∧
    get_symbol_string (some (.intV 0)) = none := by
  exact ⟨rfl, rfl, rfl⟩

/-- C4 (amended): get_symbol_string is total (never raises) and, over the
modelled shapes, returns: for a plain string, None exactly when the raw
string is empty, and otherwise the stripped string — which is the empty
string, not None, when the input is whitespace-only; for a numeric scalar,
None exactly when the value is zero (falsy), and otherwise its decimal
string; None for a missing or null field, for an empty list, and for a
non-empty rich-text list whose first span has no text entry; and the
stripped text of the first span otherwise. -/
theorem get_symbol_string_characterization :
    (∀ s : String,
      get_symbol_string (some (.str s)) =
        if s = "" then none else some (pyStrip s)) ∧
    (∀ n : ℤ,
      get_symbol_string (some (.intV n)) =
        if n = 0 then none else some (toString n)) ∧
    (∀ x : PyDec,
      get_symbol_string (some (.floatV x)) =
        if x.mant = 0 then none else some (pyDecStr x)) ∧
    get_symbol_string none = none ∧
    get_symbol_string (some (.rich [])) = none ∧
    (∀ (it : RichItem) (rest : List RichItem),
      get_symbol_string (some (.rich (it :: rest))) =
        match it.text with
        | some t => some (pyStrip t)
        | none => none) := by
  refine ⟨?_, ?_, ?_, rfl, rfl, ?_⟩
  · intro s
    by_cases h : s = "" <;> simp [get_symbol_string, truthy, h]
  · intro n
    by_cases h : n = 0 <;> simp [get_symbol_string, truthy, h]
  · intro x
    by_cases h : x.mant = 0 <;> simp [get_symbol_string, truthy, h]
  · intro it rest
    cases ht : it.text <;> simp [get_symbol_string, truthy, ht]

/-- C2 counterexample: with 3 intents and the write call failing with an
HTTP 500, the coordinator makes exactly one bulk call carrying all three
intents and raises; there is no per-record mode, no second or third
independent call, and no succeeded-2 failed-1 tally. -/
theorem update_single_bulk_cex :
    update_price_records [u1, u2, u3] resp500 =
      (.error (.httpError 500 1254005 "field validation failed"),
        [[u1, u2, u3]]) ∧
    [[u1, u2, u3]].length = 1 := by
  exact ⟨rfl, rfl⟩

/-- C2 (amended): the write-back supports only batch mode: every invocation
issues exactly one bulk call whose payload is the whole intent list, and it
returns normally exactly when the response has status 200 and a JSON body
with business code 0; any failure raises an exception (absorbed only by
main's top-level handler) instead of producing a succeeded and failed
tally. -/
theorem update_batch_only (records : List UpdateRecord) (resp : HttpResponse) :
    (update_price_records records resp).2 = [records] ∧
    ((update_price_records records resp).1 = .ok () ↔
      resp.status = 200 ∧ ∃ b, resp.body = some b ∧ b.code = 0) := by
  refine ⟨rfl, ?_⟩
  unfold update_price_records
  by_cases hs : resp.status = 200
  · cases hb : resp.body with
    | none => simp [hs, hb]
    | some b =>
      by_cases hc : b.code = 0
      · simp [hs, hb, hc]
      · simp [hs, hb, hc]
  · cases hb : resp.body with
    | none =>
      by_cases h4 : 400 ≤ resp.status <;> simp [hs, hb, h4]
    | some b => simp [hs, hb]

/-- C6: evaluation of main at the failing input. With FEISHU_APP_ID unset,
the run does abort before any network call, but it returns normally, so the
process exit code is 0 — not the non-zero exit the claim (and the source's
own comment above the except handler) requires. The same handler swallows
every exception, so no path of main exits non-zero. -/
theorem main_missing_secret_exit_zero :
    main envMissingId (.ok ()) (.ok []) dlOkNone resp200ok =
      ⟨0, [], .configError⟩ := by
  rfl

/-- C7 counterexample: a run whose only record has an empty Code field
extracts zero symbols and returns early with a message: it never reaches the
fetch download, let alone the WRITE stage, contradicting the claim that the
pipeline still proceeds to WRITE with zero intents. -/
theorem main_zero_symbols_cex :
    main envOK (.ok ()) (.ok [⟨"r1", some (.str "")⟩]) dlOkNone resp200ok =
      ⟨0, [.authCall, .readCall], .noSymbols⟩ ∧
    Action.writeCall ∉ ([.authCall, .readCall] : List Action) ∧
    Action.fetchDownload ∉ ([.authCall, .readCall] : List Action) := by
  exact ⟨rfl, by decide, by decide⟩

/-- C7 (amended): every path of main ends with exit code 0, and the WRITE
call is reached exactly when the configuration is present, the token
exchange and the record listing succeed, the listing is non-empty,
extraction yields at least one symbol, and reconciliation yields at least
one intent; an empty listing, zero extracted symbols, or zero usable quotes
each end the run early — successfully, but without reaching WRITE. -/
theorem main_write_reachability (env : Env) (auth : Except String Unit)
    (readR : Except String (List PyRecord)) (dl : Nat → DlOutcome)
    (resp : HttpResponse) :
    (main env auth readR dl resp).exitCode = 0 ∧
    (Action.writeCall ∈ (main env auth readR dl resp).actions ↔
      (envTruthy env.app_id && envTruthy env.app_secret &&
        envTruthy env.base_token) = true ∧
      auth = .ok () ∧
      ∃ records, readR = .ok records ∧ records ≠ [] ∧
        extractSymbols records ≠ [] ∧
        (reconcile (fetch_yfinance_price (extractSymbols records) dl).prices
            records).1 ≠ []) := by
  by_cases hc : (envTruthy env.app_id && envTruthy env.app_secret &&
      envTruthy env.base_token) = true
  · cases auth with
    | error e => exact ⟨by simp [main, hc], by simp [main, hc]⟩
    | ok u =>
      cases u
      cases readR with
      | error e => exact ⟨by simp [main, hc], by simp [main, hc]⟩
      | ok records =>
        by_cases hr : records = []
        · exact ⟨by simp [main, hc, hr], by simp [main, hc, hr]⟩
        · by_cases hsym : extractSymbols records = []
          · exact ⟨by simp [main, hc, hr, hsym], by simp [main, hc, hr, hsym]⟩
          · by_cases hp : (reconcile (fetch_yfinance_price
                (extractSymbols records) dl).prices records).1 = []
            · exact ⟨by simp [main, hc, hr, hsym, hp],
                by simp [main, hc, hr, hsym, hp]⟩
            · cases hw : (update_price_records (reconcile (fetch_yfinance_price
                  (extractSymbols records) dl).prices records).1 resp).1 with
              | error e =>
                exact ⟨by simp [main, hc, hr, hsym, hp, hw],
                  by simp [main, hc, hr, hsym, hp, hw]⟩
              | ok u2 =>
                cases u2
                exact ⟨by simp [main, hc, hr, hsym, hp, hw],
                  by simp [main, hc, hr, hsym, hp, hw]⟩
  · exact ⟨by simp [main, hc], by simp [main, hc]⟩

/-- C7 witness for the amended theorem: a concrete full run in which every
condition holds and the write call is made: one record with code A, a
successful download giving A the price 1, and a successful write. -/
theorem main_write_reachability_witness :
    (main envOK (.ok ()) (.ok [⟨"r1", some (.str "A")⟩])
        (fun _ => .ok fun _ => some (.fin 1)) resp200ok).exitCode = 0 ∧
    (Action.writeCall ∈ (main envOK (.ok ()) (.ok [⟨"r1", some (.str "A")⟩])
        (fun _ => .ok fun _ => some (.fin 1)) resp200ok).actions ↔
      (envTruthy envOK.app_id && envTruthy envOK.app_secret &&
        envTruthy envOK.base_token) = true ∧
      (Except.ok () : Except String Unit) = .ok () ∧
      ∃ records,
        (Except.ok [⟨"r1", some (.str "A")⟩] :
            Except String (List PyRecord)) = .ok records ∧
        records ≠ [] ∧ extractSymbols records ≠ [] ∧
        (reconcile (fetch_yfinance_price (extractSymbols records)
            (fun _ => .ok fun _ => some (.fin 1))).prices records).1 ≠ []) :=
  main_write_reachability envOK (.ok ()) (.ok [⟨"r1", some (.str "A")⟩])
    (fun _ => .ok fun _ => some (.fin 1)) resp200ok

end Gupiao
